import Mathlib

/-!
Verification of the multi-server, multi-user session management subsystem of the
repository (frontend/src/composables/use-remote.ts: class RemotePluginAuth and
class JellyfinInterceptors). The TypeScript operations are shallowly embedded as
pure state transformers over an explicit AuthState record. JavaScript array and
object semantics (find/indexOf by first match, splice, delete on object keys,
truthiness, parseInt, optional chaining) are modelled by the js-prefixed helper
functions below. Network calls are modelled by passing the response or error as
an explicit argument; fire-and-forget requests whose outcome the code never
reads are given an outcome argument that the definitions ignore, exactly as the
code does.
-/

/-! ## JavaScript array and object helpers -/

/-- First element of the list satisfying the predicate together with its
position: models `Array.prototype.find` combined with `indexOf` of the found
element (in the embedded code the found object occurs first at exactly the
found position, so reference equality and this positional model agree). -/
def jsFindWithIdx? (q : α → Bool) : List α → Option (Nat × α)
  | [] => none
  | a :: as => if q a then some (0, a) else (jsFindWithIdx? q as).map (fun r => (r.1 + 1, r.2))

/-- Models `arr.indexOf(arr.find(q))`: position of the first match, `-1` when
there is none (`indexOf(undefined)` is `-1`). -/
def jsFindIndex (q : α → Bool) (l : List α) : Int :=
  match jsFindWithIdx? q l with
  | some r => (r.1 : Int)
  | none => -1

/-- Removes the first element satisfying the predicate, if any: models
`arr.splice(arr.indexOf(arr.find(q)), 1)` of the embedded code. -/
def jsEraseFirstWhere (q : α → Bool) : List α → List α
  | [] => []
  | a :: as => if q a then as else a :: jsEraseFirstWhere q as

/-- Models JavaScript indexing `arr[i]` with an integer index: out-of-range and
negative indices give `undefined`. -/
def jsIndexGet (l : List α) (i : Int) : Option α :=
  if i < 0 then none else l.get? i.toNat

/-- Bool test of whether the pattern occurs as a contiguous substring: models
`String.prototype.includes`. -/
def leadsWith : List Char → List Char → Bool
  | [], _ => true
  | _ :: _, [] => false
  | a :: as, b :: bs => a == b && leadsWith as bs

def strIncludes (s pat : String) : Bool :=
  (List.range (s.toList.length + 1)).any (fun i => leadsWith pat.toList (s.toList.drop i))

/-- The token map is a JavaScript object keyed by strings; modelled as an
association list with unique keys. `delete obj[k]` removes the entry. -/
def eraseKey (k : String) (ts : List (String × String)) : List (String × String) :=
  ts.filter (fun kv => !(kv.1 == k))

/-- `obj[k] = v`: overwrite in place when the key exists, else append. -/
def setKey (k v : String) (ts : List (String × String)) : List (String × String) :=
  if ts.any (fun kv => kv.1 == k) then ts.map (fun kv => if kv.1 == k then (k, v) else kv)
  else ts ++ [(k, v)]

/-- `obj[k]`: `undefined` when the key is absent. -/
def jsLookup (k : String) (ts : List (String × String)) : Option String :=
  (ts.find? (fun kv => kv.1 == k)).map (fun kv => kv.2)

/-- The code indexes the token map with `user.Id as string`; when `Id` is
`undefined`, JavaScript coerces the property key to the string "undefined". -/
def idKey : Option String → String
  | some s => s
  | none => "undefined"

/-- JavaScript truthiness of an optional string (`undefined`, `null` and the
empty string are falsy). -/
def truthyStr : Option String → Bool
  | some s => !(s == "")
  | none => false

/-- JavaScript truthiness of an optional boolean. -/
def truthyB (b : Option Bool) : Bool := b.getD false

/-- Numeric value of a run of decimal digits. -/
def digitsVal (ds : List Char) : Nat := ds.foldl (fun a c => a * 10 + (c.toNat - 48)) 0

/-- `String.prototype.trim` on the character list (drop whitespace at both
ends). -/
def jsTrimChars (cs : List Char) : List Char :=
  ((cs.dropWhile Char.isWhitespace).reverse.dropWhile Char.isWhitespace).reverse

/-- The longest leading run of digits, with sign handling, as parsed by
`Number.parseInt` in base 10; `none` models NaN. -/
def parseIntChars (cs0 : List Char) : Option Int :=
  let core := fun (l : List Char) (sign : Int) =>
    let ds := l.takeWhile (fun c => c.isDigit)
    if ds.isEmpty then none else some (sign * (digitsVal ds : Int))
  match cs0.dropWhile Char.isWhitespace with
  | '-' :: rest => core rest (-1)
  | '+' :: rest => core rest 1
  | l => core l 1

/-- Models `Number.parseInt(s)` in base 10: leading whitespace skipped,
optional sign, then the longest run of digits; `none` models NaN. -/
def parseIntJS (s : String) : Option Int :=
  parseIntChars s.toList

/-- `s.split('.')` on the character list: every dot separates, consecutive
dots give empty components. -/
def jsSplitDot : List Char → List Char → List (List Char)
  | [], acc => [acc.reverse]
  | c :: cs, acc =>
    if c = '.' then acc.reverse :: jsSplitDot cs [] else jsSplitDot cs (c :: acc)

/-! ## Data model (frontend/src/composables/use-remote.ts, store/types) -/

/-- The consumed fields of a user record (UserDto): `Id` and `ServerId` are
server-assigned and optional in the DTO; `Name` stands for the remaining
profile fields. -/
structure UserDto where
  Id : Option String
  ServerId : Option String
  Name : Option String
deriving DecidableEq, Inhabited

/-- The consumed fields of the public-system-info response; `LocalAddress` is
deleted before the record is stored. -/
structure PublicSystemInfo where
  Id : Option String
  Version : Option String
  StartupWizardCompleted : Option Bool
  LocalAddress : Option String
deriving DecidableEq, Inhabited

/-- A stored server record: the (LocalAddress-stripped) system info plus the
`PublicAddress` and `isDefault` fields assigned by connectServer. -/
structure ServerInfo where
  Id : Option String
  Version : Option String
  StartupWizardCompleted : Option Bool
  PublicAddress : String
  isDefault : Bool
deriving DecidableEq, Inhabited

/-- The persisted auth state (the useStorage value in use-remote.ts). -/
structure AuthState where
  servers : List ServerInfo
  currentServerIndex : Int
  currentUserIndex : Int
  users : List UserDto
  rememberMe : Bool
  accessTokens : List (String × String)
deriving DecidableEq, Inhabited

/-- The default state installed when nothing is persisted. -/
def initialAuthState : AuthState :=
  { servers := []
    currentServerIndex := -1
    currentUserIndex := -1
    users := []
    rememberMe := true
    accessTokens := [] }

/-- The authenticate-by-name response body: `{User, AccessToken}`. -/
structure AuthResponse where
  User : Option UserDto
  AccessToken : Option String
deriving DecidableEq, Inhabited

/-! ## Getters (RemotePluginAuth) -/

def currentServer (st : AuthState) : Option ServerInfo :=
  jsIndexGet st.servers st.currentServerIndex

def currentUser (st : AuthState) : Option UserDto :=
  jsIndexGet st.users st.currentUserIndex

def getUserAccessToken (st : AuthState) (user : Option UserDto) : Option String :=
  match user with
  | some u => if truthyStr u.Id then jsLookup (idKey u.Id) st.accessTokens else none
  | none => none

def getServerById (st : AuthState) (serverId : Option String) : Option ServerInfo :=
  (st.servers.find? (fun server => server.Id == serverId))

def getUsersFromServer (st : AuthState) (server : ServerInfo) : List UserDto :=
  st.users.filter (fun user => user.ServerId == server.Id)

/-! ## logoutUser / logoutCurrentUser -/

/-- The state effect of the `finally` block of logoutUser: remove the first
user record whose `Id` equals the given user record `Id` and delete the token
map entry for that `Id`. -/
def logoutUserCleanup (st : AuthState) (user : UserDto) : AuthState :=
  { st with
    users := jsEraseFirstWhere (fun u => u.Id == user.Id) st.users
    accessTokens := eraseKey (idKey user.Id) st.accessTokens }

/-- logoutUser(user, server, skipRequest). Unless skipRequest, the code fires
the remote sign-out without awaiting it; `remoteOk` models the outcome of that
request and is never read, so the cleanup runs unconditionally. -/
def logoutUser (st : AuthState) (user : UserDto) (_server : ServerInfo)
    (_skipRequest : Bool) (_remoteOk : Bool) : AuthState :=
  logoutUserCleanup st user

/-- logoutCurrentUser(skipRequest): no-op unless both a current user and a
current server exist; afterwards the current user index is reset to -1. -/
def logoutCurrentUser (st : AuthState) (skipRequest : Bool) : AuthState :=
  match currentUser st, currentServer st with
  | some u, some sv => { logoutUser st u sv skipRequest true with currentUserIndex := -1 }
  | _, _ => st

/-! ## deleteServer -/

deriving instance DecidableEq for Except

inductive DeleteError
  | serverUnknown
deriving DecidableEq

structure DeleteOutcome where
  result : Except DeleteError Unit
  state : AuthState
deriving DecidableEq

/-- deleteServer(serverUrl): find the server by address (throwing ServerUnknown
when absent), sequentially log out every user whose `ServerId` matches the
found server (the filter always yields an array, which is truthy, so the loop
always runs), then splice the found server out of the registry. -/
def deleteServer (st : AuthState) (serverUrl : String) : DeleteOutcome :=
  match jsFindWithIdx? (fun s => s.PublicAddress == serverUrl) st.servers with
  | none => { result := .error .serverUnknown, state := st }
  | some (d, server) =>
    let snap := st.users.filter (fun u => u.ServerId == server.Id)
    let stMid := snap.foldl logoutUserCleanup st
    { result := .ok ()
      state := { stMid with servers := stMid.servers.eraseIdx d } }

/-! ## connectServer -/

/-- `serverUrl.replace(/\/$/, '').trim()`: one trailing slash stripped first,
then the result is trimmed. -/
def normalizeUrl (serverUrl : String) : String :=
  String.mk (jsTrimChars
    (if serverUrl.toList.getLast? == some '/' then serverUrl.toList.dropLast
     else serverUrl.toList))

/-- The record built from the response: `delete data.LocalAddress` followed by
the `PublicAddress` and `isDefault` assignments. -/
def serverFromResponse (data : PublicSystemInfo) (serverUrl : String) (isDefault : Bool) :
    ServerInfo :=
  { Id := data.Id
    Version := data.Version
    StartupWizardCompleted := data.StartupWizardCompleted
    PublicAddress := serverUrl
    isDefault := isDefault }

/-- lodash merge(oldServer, serv): source fields overwrite the destination
except those that are `undefined`; `PublicAddress` and `isDefault` are always
assigned on `serv` before the merge. -/
def mergeServerInfo (old serv : ServerInfo) : ServerInfo :=
  { Id := if serv.Id.isSome then serv.Id else old.Id
    Version := if serv.Version.isSome then serv.Version else old.Version
    StartupWizardCompleted :=
      if serv.StartupWizardCompleted.isSome then serv.StartupWizardCompleted
      else old.StartupWizardCompleted
    PublicAddress := serv.PublicAddress
    isDefault := serv.isDefault }

/-- `Number.parseInt(serv.Version?.split('.')[0])`; `none` models NaN (both a
missing version string and a missing or non-numeric component give NaN). -/
def semverMajorOf (version : Option String) : Option Int :=
  version.bind (fun v => ((jsSplitDot v.toList []).get? 0).bind parseIntChars)

/-- `Number.parseInt(serv.Version?.split('.')[1])`. -/
def semverMinorOf (version : Option String) : Option Int :=
  version.bind (fun v => ((jsSplitDot v.toList []).get? 1).bind parseIntChars)

/-- `semverMajor > c` where NaN comparisons are false. -/
def jsNaNgt (x : Option Int) (c : Int) : Bool :=
  match x with
  | some a => decide (c < a)
  | none => false

/-- `semverMajor === c` where NaN equals nothing. -/
def jsNaNeq (x : Option Int) (c : Int) : Bool :=
  match x with
  | some a => decide (a = c)
  | none => false

/-- `semverMinor >= c` where NaN comparisons are false. -/
def jsNaNge (x : Option Int) (c : Int) : Bool :=
  match x with
  | some a => decide (c ≤ a)
  | none => false

/-- `semverMajor > 10 || (semverMajor === 10 && semverMinor >= 7)`. -/
def isServerVersionSupported (version : Option String) : Bool :=
  jsNaNgt (semverMajorOf version) 10 ||
    (jsNaNeq (semverMajorOf version) 10 && jsNaNge (semverMinorOf version) 7)

inductive ConnectError
  | serverUnreachable
  | versionUnsupported
deriving DecidableEq

structure ConnectOutcome where
  result : Except ConnectError Unit
  state : AuthState
  notifications : List String
  navigation : Option String
deriving DecidableEq

/-- connectServer(serverUrl, isDefault). `resp` is the outcome of the one-off
public-system-info request (`none` models any network or protocol failure).

In the branch for an already-known server identifier the code invokes
`this.deleteServer(oldServer.PublicAddress)` WITHOUT awaiting it. Under the
single-threaded event loop that call runs synchronously up to the first `await`
inside its per-user logout loop. When the old server has no users the loop body
never runs, so the whole of deleteServer (including the final splice) completes
before the push and the currentServerIndex assignment. When it has users, the
first user is logged out synchronously, then deleteServer suspends: the push of
`merge(oldServer, serv)` (which mutates the old record in place) and the
currentServerIndex assignment run next, and only afterwards do the remaining
logouts and the final splice run; the index is not recomputed after the splice.
The definition below is the resulting (deterministic) end state once the
microtask queue drains. -/
def connectServer (st : AuthState) (serverUrl0 : String) (isDefault : Bool)
    (resp : Option PublicSystemInfo) : ConnectOutcome :=
  let serverUrl := normalizeUrl serverUrl0
  match resp with
  | none =>
    { result := .error .serverUnreachable, state := st
      notifications := ["login.serverNotFound"], navigation := none }
  | some data =>
    let serv := serverFromResponse data serverUrl isDefault
    if isServerVersionSupported serv.Version then
      if !(truthyB serv.StartupWizardCompleted) then
        { result := .ok (), state := st, notifications := [], navigation := some "/wizard" }
      else
        match jsFindWithIdx? (fun s => s.Id == serv.Id) st.servers with
        | none =>
          let servers1 := st.servers ++ [serv]
          { result := .ok (), notifications := [], navigation := none
            state := { st with
              servers := servers1
              currentServerIndex :=
                jsFindIndex (fun s => s.PublicAddress == serverUrl) servers1 } }
        | some (p, old) =>
          let merged := mergeServerInfo old serv
          match jsFindWithIdx? (fun s => s.PublicAddress == old.PublicAddress) st.servers with
          | none =>
            -- unreachable in practice (the old record matches its own address);
            -- the unawaited deleteServer would reject unhandled and the push of
            -- the in-place-merged record plus the index assignment still happen
            let servers1 := (st.servers.set p merged) ++ [merged]
            { result := .ok (), notifications := [], navigation := none
              state := { st with
                servers := servers1
                currentServerIndex :=
                  jsFindIndex (fun s => s.PublicAddress == serverUrl) servers1 } }
          | some (d, target) =>
            let snap := st.users.filter (fun u => u.ServerId == target.Id)
            let stMid := snap.foldl logoutUserCleanup st
            if snap.isEmpty then
              -- no awaits inside deleteServer: splice first, then push and index
              let afterSplice := st.servers.eraseIdx d
              let servers1 :=
                (if d == p then afterSplice
                 else afterSplice.set (if d < p then p - 1 else p) merged) ++ [merged]
              { result := .ok (), notifications := [], navigation := none
                state := { stMid with
                  servers := servers1
                  currentServerIndex :=
                    jsFindIndex (fun s => s.PublicAddress == serverUrl) servers1 } }
            else
              -- push and index assignment run while deleteServer is suspended;
              -- the final splice runs afterwards and the index stays as computed
              let pre := (st.servers.set p merged) ++ [merged]
              let idx := jsFindIndex (fun s => s.PublicAddress == serverUrl) pre
              { result := .ok (), notifications := [], navigation := none
                state := { stMid with
                  servers := pre.eraseIdx d
                  currentServerIndex := idx } }
    else
      { result := .error .versionUnsupported, state := st
        notifications := ["login.serverVersionTooLow"], navigation := none }

/-! ## loginUser -/

/-- The error shape consumed for classification: `response?.status` and
`message` of an axios error. -/
structure AxiosErrorModel where
  response : Option Int
  message : String
deriving DecidableEq, Inhabited

/-- The message classification of the catch block in loginUser. -/
def classifyLoginError (e : AxiosErrorModel) : String :=
  match e.response with
  | none => if e.message == "" then "login.serverNotFound" else e.message
  | some status =>
    if status == 500 || status == 401 then "incorrectUsernameOrPassword"
    else if status == 400 then "badRequest"
    else "unexpectedError"

inductive LoginError
  | noCurrentServer
deriving DecidableEq

structure LoginOutcome where
  result : Except LoginError Unit
  state : AuthState
  notifications : List String
deriving DecidableEq

/-- loginUser(username, password, rememberMe). `authResult` is the outcome of
the authenticate-by-name request. On success `rememberMe` is persisted and,
when both the returned user id and the access token are truthy, the token is
stored, the user appended, and currentUserIndex set to the position of the
freshly pushed record (indexOf of the new object). On failure the classified
message is emitted and the call resolves normally. -/
def loginUser (st : AuthState) (_username _password : String) (rememberMe : Bool)
    (authResult : Except AxiosErrorModel AuthResponse) : LoginOutcome :=
  match currentServer st with
  | none => { result := .error .noCurrentServer, state := st, notifications := [] }
  | some _ =>
    match authResult with
    | .error e => { result := .ok (), state := st, notifications := [classifyLoginError e] }
    | .ok data =>
      let st1 := { st with rememberMe := rememberMe }
      match data.User, data.User.bind (fun u => u.Id), data.AccessToken with
      | some user, some uid, some tok =>
        if uid == "" || tok == "" then
          { result := .ok (), state := st1, notifications := [] }
        else
          { result := .ok (), notifications := []
            state := { st1 with
              accessTokens := setKey uid tok st1.accessTokens
              users := st1.users ++ [user]
              currentUserIndex := (st1.users.length : Int) } }
      | _, _, _ => { result := .ok (), state := st1, notifications := [] }

/-- `data.User?.Id && data.AccessToken` as a Bool. -/
def hasLoginCreds (data : AuthResponse) : Bool :=
  match data.User with
  | some user => truthyStr user.Id && truthyStr data.AccessToken
  | none => false

/-! ## Interceptor chain: forced sign-out on 401 -/

/-- The consumed fields of a response error seen by the logout interceptor:
`error.response?.status` and `error.config?.url`. -/
structure AxiosCallError where
  status : Option Int
  url : Option String
deriving DecidableEq, Inhabited

structure InterceptorOutcome where
  state : AuthState
  notifications : List String
  rethrown : AxiosCallError
deriving DecidableEq

/-- `!error.config?.url?.includes('/Sessions/Logout')`: a missing url makes the
optional chain `undefined`, whose negation is true. -/
def urlHasSessionsLogout (url : Option String) : Bool :=
  match url with
  | some u => strIncludes u "/Sessions/Logout"
  | none => false

/-- logoutInterceptor(error): on a 401 with a current user whose failing
request is not itself the sign-out endpoint, force a local-only sign-out of the
current user and notify; the error is always rethrown. -/
def logoutInterceptor (st : AuthState) (e : AxiosCallError) : InterceptorOutcome :=
  if e.status == some 401 && (currentUser st).isSome && !(urlHasSessionsLogout e.url) then
    { state := logoutCurrentUser st true, notifications := ["kickedOut"], rethrown := e }
  else
    { state := st, notifications := [], rethrown := e }

/-! ## Reachable states and the token-map invariant -/

/-- States reachable from the initial state by any sequence of Session Manager
operations, with arbitrary arguments and arbitrary network outcomes. -/
inductive Reachable : AuthState → Prop
  | init : Reachable initialAuthState
  | connect {st} (url : String) (isDef : Bool) (resp : Option PublicSystemInfo) :
      Reachable st → Reachable (connectServer st url isDef resp).state
  | login {st} (un pw : String) (rm : Bool) (r : Except AxiosErrorModel AuthResponse) :
      Reachable st → Reachable (loginUser st un pw rm r).state
  | logout {st} (u : UserDto) (sv : ServerInfo) (skip ok : Bool) :
      Reachable st → Reachable (logoutUser st u sv skip ok)
  | logoutCurrent {st} (skip : Bool) :
      Reachable st → Reachable (logoutCurrentUser st skip)
  | deleteSrv {st} (url : String) :
      Reachable st → Reachable (deleteServer st url).state

/-- Every key of the token map is the identifier of a user record currently
present in the user registry. -/
def TokenKeysValid (st : AuthState) : Prop :=
  ∀ kv ∈ st.accessTokens, ∃ u ∈ st.users, u.Id = some kv.1

/-! ## Concrete scenario states used by witnesses and counterexamples -/

/-- A wizard-complete, version-supported response carrying server id "sa". -/
def respA : PublicSystemInfo :=
  { Id := some "sa", Version := some "10.8.0", StartupWizardCompleted := some true
    LocalAddress := some "192.168.0.10" }

/-- A wizard-complete, version-supported response carrying server id "sb". -/
def respB : PublicSystemInfo :=
  { Id := some "sb", Version := some "10.8.0", StartupWizardCompleted := some true
    LocalAddress := none }

/-- A response whose version fails the gate. -/
def resp1069 : PublicSystemInfo :=
  { Id := some "sx", Version := some "10.6.9", StartupWizardCompleted := some true
    LocalAddress := none }

/-- A successful authenticate response for a user on server "sb". -/
def respLoginB : AuthResponse :=
  { User := some { Id := some "u", ServerId := some "sb", Name := some "U" }
    AccessToken := some "tok" }

/-- State after connecting server "sa" at address "http://a" from the initial
state: one server, currentServerIndex 0. -/
def stConnA : AuthState :=
  (connectServer initialAuthState "http://a" false (some respA)).state

/-- State after additionally connecting server "sb" at "http://b": two servers,
currentServerIndex 1. -/
def stConnAB : AuthState :=
  (connectServer stConnA "http://b" false (some respB)).state

/-- State after additionally logging in user "u" on the current server "sb". -/
def stLoginB : AuthState :=
  (loginUser stConnAB "user" "pw" true (.ok respLoginB)).state

/-- State after additionally deleting server "sa": the registry shrinks to one
element but currentServerIndex keeps the stale value 1, so a current user
exists while the current server is undefined. -/
def stStale : AuthState := (deleteServer stLoginB "http://a").state

/-- State after deleting "http://a" directly from stConnA: the registry is
empty but currentServerIndex keeps the stale value 0. -/
def stEmptyStale : AuthState := (deleteServer stConnA "http://a").state

/-- Two registered servers used by the identifier-collision states. -/
def srvA : ServerInfo :=
  { Id := some "a", Version := some "10.8.0", StartupWizardCompleted := some true
    PublicAddress := "http://a", isDefault := false }

def srvB : ServerInfo :=
  { Id := some "b", Version := some "10.8.0", StartupWizardCompleted := some true
    PublicAddress := "http://b", isDefault := false }

/-- Two user records on different servers sharing the identifier "u1" (user
identifiers are only unique per server). -/
def usrOnA : UserDto := { Id := some "u1", ServerId := some "a", Name := some "Alice" }

def usrOnB : UserDto := { Id := some "u1", ServerId := some "b", Name := some "Bea" }

/-- A state where two servers each own a user with identifier "u1"; the record
of server "b" precedes the record of server "a" in the user registry. -/
def collisionState : AuthState :=
  { servers := [srvA, srvB]
    currentServerIndex := -1
    currentUserIndex := -1
    users := [usrOnB, usrOnA]
    rememberMe := true
    accessTokens := [("u1", "tok1")] }

/-! ## Helper lemmas about the JavaScript array and object model -/

theorem jsEraseFirstWhere_cons (q : α → Bool) (a : α) (l : List α) :
    jsEraseFirstWhere q (a :: l) = if q a then l else a :: jsEraseFirstWhere q l := rfl

theorem jsEraseFirstWhere_cons_pos (q : α → Bool) {a : α} (h : q a = true) (l : List α) :
    jsEraseFirstWhere q (a :: l) = l := by
  simp [jsEraseFirstWhere_cons, h]

theorem jsEraseFirstWhere_cons_neg (q : α → Bool) {a : α} (h : q a = false) (l : List α) :
    jsEraseFirstWhere q (a :: l) = a :: jsEraseFirstWhere q l := by
  simp [jsEraseFirstWhere_cons, h]

theorem mem_jsEraseFirstWhere_of_not {q : α → Bool} {a : α} {l : List α}
    (ha : a ∈ l) (hq : q a = false) : a ∈ jsEraseFirstWhere q l := by
  induction l with
  | nil => cases ha
  | cons x xs ih =>
    rw [jsEraseFirstWhere_cons]
    rcases List.mem_cons.mp ha with h | h
    · subst h
      simp [hq]
    · cases hx : q x with
      | true => simpa [hx] using h
      | false => simpa [hx] using Or.inr (ih h)

theorem foldl_cleanup_users (snap : List UserDto) (st : AuthState) :
    (snap.foldl logoutUserCleanup st).users
      = snap.foldl (fun acc u => jsEraseFirstWhere (fun v => v.Id == u.Id) acc) st.users := by
  induction snap generalizing st with
  | nil => rfl
  | cons u us ih => simp [List.foldl, ih, logoutUserCleanup]

theorem foldl_cleanup_accessTokens (snap : List UserDto) (st : AuthState) :
    (snap.foldl logoutUserCleanup st).accessTokens
      = snap.foldl (fun acc u => eraseKey (idKey u.Id) acc) st.accessTokens := by
  induction snap generalizing st with
  | nil => rfl
  | cons u us ih => simp [List.foldl, ih, logoutUserCleanup]

theorem foldl_cleanup_servers (snap : List UserDto) (st : AuthState) :
    (snap.foldl logoutUserCleanup st).servers = st.servers := by
  induction snap generalizing st with
  | nil => rfl
  | cons u us ih => simp [List.foldl, ih, logoutUserCleanup]

theorem foldl_cleanup_currentServerIndex (snap : List UserDto) (st : AuthState) :
    (snap.foldl logoutUserCleanup st).currentServerIndex = st.currentServerIndex := by
  induction snap generalizing st with
  | nil => rfl
  | cons u us ih => simp [List.foldl, ih, logoutUserCleanup]

theorem foldl_cleanup_currentUserIndex (snap : List UserDto) (st : AuthState) :
    (snap.foldl logoutUserCleanup st).currentUserIndex = st.currentUserIndex := by
  induction snap generalizing st with
  | nil => rfl
  | cons u us ih => simp [List.foldl, ih, logoutUserCleanup]

theorem foldl_cleanup_rememberMe (snap : List UserDto) (st : AuthState) :
    (snap.foldl logoutUserCleanup st).rememberMe = st.rememberMe := by
  induction snap generalizing st with
  | nil => rfl
  | cons u us ih => simp [List.foldl, ih, logoutUserCleanup]

theorem jsLookup_eraseKey_self (k : String) (ts : List (String × String)) :
    jsLookup k (eraseKey k ts) = none := by
  have hfind : (eraseKey k ts).find? (fun kv => kv.1 == k) = none := by
    rw [List.find?_eq_none]
    intro kv hkv
    have := (List.mem_filter.mp hkv).2
    simp only [Bool.not_eq_true'] at this
    simp [this]
  simp [jsLookup, hfind]

theorem jsLookup_eraseKey_ne {k k2 : String} (hk : k ≠ k2) (ts : List (String × String)) :
    jsLookup k (eraseKey k2 ts) = jsLookup k ts := by
  induction ts with
  | nil => rfl
  | cons kv rest ih =>
    unfold eraseKey at ih ⊢
    rw [List.filter_cons]
    cases h2 : (kv.1 == k2) with
    | true =>
      have hkv2 : kv.1 = k2 := beq_iff_eq.mp h2
      have hne : (kv.1 == k) = false :=
        beq_eq_false_iff_ne.mpr (by rw [hkv2]; exact fun he => hk he.symm)
      rw [if_neg (by simp [h2])]
      rw [ih, jsLookup, jsLookup, List.find?_cons_of_neg _ (by simp [hne])]
    | false =>
      rw [if_pos (by simp [h2])]
      cases h1 : (kv.1 == k) with
      | true =>
        rw [jsLookup, jsLookup, List.find?_cons_of_pos _ (by simp [h1]),
          List.find?_cons_of_pos _ (by simp [h1])]
      | false =>
        rw [jsLookup, jsLookup, List.find?_cons_of_neg _ (by simp [h1]),
          List.find?_cons_of_neg _ (by simp [h1])]
        exact ih

theorem jsLookup_eraseKey_none {k k2 : String} {ts : List (String × String)}
    (h : jsLookup k ts = none) : jsLookup k (eraseKey k2 ts) = none := by
  by_cases hk : k = k2
  · subst hk
    exact jsLookup_eraseKey_self k ts
  · rw [jsLookup_eraseKey_ne hk]
    exact h

theorem jsLookup_foldl_eraseKey_none {k : String} {ts : List (String × String)}
    (h : jsLookup k ts = none) (snap : List UserDto) :
    jsLookup k (snap.foldl (fun a u => eraseKey (idKey u.Id) a) ts) = none := by
  induction snap generalizing ts with
  | nil => exact h
  | cons v vs ih => exact ih (jsLookup_eraseKey_none h)

theorem jsLookup_foldl_eraseKey_mem {snap : List UserDto} {u : UserDto} (hu : u ∈ snap)
    (ts : List (String × String)) :
    jsLookup (idKey u.Id) (snap.foldl (fun a v => eraseKey (idKey v.Id) a) ts) = none := by
  induction snap generalizing ts with
  | nil => cases hu
  | cons v vs ih =>
    rcases List.mem_cons.mp hu with h | h
    · subst h
      exact jsLookup_foldl_eraseKey_none (jsLookup_eraseKey_self _ _) vs
    · exact ih h _

theorem foldl_erase_cons (snap : List UserDto) (x : UserDto) (us : List UserDto)
    (h : ∀ u ∈ snap, (x.Id == u.Id) = false) :
    snap.foldl (fun acc u => jsEraseFirstWhere (fun v => v.Id == u.Id) acc) (x :: us)
      = x :: snap.foldl (fun acc u => jsEraseFirstWhere (fun v => v.Id == u.Id) acc) us := by
  induction snap generalizing us with
  | nil => rfl
  | cons y ys ih =>
    have hx : (x.Id == y.Id) = false := h y (by simp)
    simp only [List.foldl]
    rw [jsEraseFirstWhere_cons_neg (fun v : UserDto => v.Id == y.Id) hx]
    exact ih _ (fun u hu => h u (List.mem_cons_of_mem _ hu))

/-- Sequentially erasing the first record with each snapshot id, starting from
a registry with pairwise distinct ids, removes exactly the snapshot. -/
theorem foldl_erase_filter (us : List UserDto) (p : UserDto → Bool)
    (h : (us.map (fun u => u.Id)).Nodup) :
    (us.filter p).foldl (fun acc u => jsEraseFirstWhere (fun v => v.Id == u.Id) acc) us
      = us.filter (fun u => !(p u)) := by
  induction us with
  | nil => rfl
  | cons x rest ih =>
    have hx : x.Id ∉ rest.map (fun u => u.Id) := (List.nodup_cons.mp h).1
    have hrest := (List.nodup_cons.mp h).2
    cases hp : p x with
    | true =>
      rw [List.filter_cons_of_pos hp]
      have hhead : jsEraseFirstWhere (fun v => v.Id == x.Id) (x :: rest) = rest :=
        jsEraseFirstWhere_cons_pos (fun v => v.Id == x.Id) (by simp) rest
      simp only [List.foldl, hhead]
      rw [ih hrest, List.filter_cons_of_neg (by simp [hp])]
    | false =>
      rw [List.filter_cons_of_neg (by simp [hp])]
      have hall : ∀ u ∈ rest.filter p, (x.Id == u.Id) = false := by
        intro u hu
        have hmem : u.Id ∈ rest.map (fun v => v.Id) :=
          List.mem_map_of_mem _ (List.mem_of_mem_filter hu)
        exact beq_eq_false_iff_ne.mpr (fun he => hx (he ▸ hmem))
      rw [foldl_erase_cons _ _ _ hall, ih hrest,
        List.filter_cons_of_pos (by simp [hp])]

/-- When every registry record sharing the target id is the target record
itself, the splice-by-found-index equals erasing the record. -/
theorem jsEraseFirstWhere_eq_erase {user : UserDto} {us : List UserDto}
    (huniq : ∀ v ∈ us, v.Id = user.Id → v = user) :
    jsEraseFirstWhere (fun v => v.Id == user.Id) us = us.erase user := by
  induction us with
  | nil => rfl
  | cons x xs ih =>
    rw [jsEraseFirstWhere_cons, List.erase_cons]
    cases hx : (x.Id == user.Id) with
    | true =>
      have hxu : x = user := huniq x (by simp) (beq_iff_eq.mp hx)
      simp [hxu]
    | false =>
      have hxu : x ≠ user := by
        intro he
        rw [he] at hx
        simp at hx
      simp only [beq_eq_false_iff_ne.mpr hxu, if_neg, Bool.false_eq_true, not_false_iff]
      rw [ih (fun v hv hid => huniq v (List.mem_cons_of_mem _ hv) hid)]

theorem jsFindWithIdx?_eq_some {q : α → Bool} {l : List α} {n : Nat} {a : α}
    (h : jsFindWithIdx? q l = some (n, a)) :
    n < l.length ∧ l.get? n = some a ∧ q a = true := by
  induction l generalizing n with
  | nil => cases h
  | cons x xs ih =>
    unfold jsFindWithIdx? at h
    cases hq : q x with
    | true =>
      rw [hq, if_pos rfl] at h
      simp only [Option.some.injEq, Prod.mk.injEq] at h
      obtain ⟨h1, h2⟩ := h
      subst h1
      subst h2
      exact ⟨Nat.succ_pos _, rfl, hq⟩
    | false =>
      rw [hq, if_neg (by simp)] at h
      rw [Option.map_eq_some'] at h
      obtain ⟨⟨m, b⟩, hmb, heq⟩ := h
      simp only [Prod.mk.injEq] at heq
      obtain ⟨h1, h2⟩ := heq
      subst h1
      subst h2
      obtain ⟨hlen, hget, hqb⟩ := ih hmb
      exact ⟨Nat.succ_lt_succ hlen, hget, hqb⟩

theorem jsFindWithIdx?_min {q : α → Bool} {l : List α} {n : Nat} {a : α}
    (h : jsFindWithIdx? q l = some (n, a))
    {i : Nat} {b : α} (hb : l.get? i = some b) (hq : q b = true) : n ≤ i := by
  induction l generalizing n i with
  | nil => cases h
  | cons x xs ih =>
    unfold jsFindWithIdx? at h
    cases hqx : q x with
    | true =>
      rw [hqx, if_pos rfl] at h
      simp only [Option.some.injEq, Prod.mk.injEq] at h
      exact h.1 ▸ Nat.zero_le _
    | false =>
      rw [hqx, if_neg (by simp)] at h
      rw [Option.map_eq_some'] at h
      obtain ⟨⟨m, c⟩, hmc, heq⟩ := h
      simp only [Prod.mk.injEq] at heq
      obtain ⟨h1, h2⟩ := heq
      subst h1
      subst h2
      cases i with
      | zero =>
        simp only [List.get?, Option.some.injEq] at hb
        subst hb
        rw [hq] at hqx
        cases hqx
      | succ j =>
        exact Nat.succ_le_succ (ih hmc (by simpa using hb))

theorem jsFindWithIdx?_isSome {q : α → Bool} {l : List α} {i : Nat} {b : α}
    (hb : l.get? i = some b) (hq : q b = true) :
    ∃ n a, jsFindWithIdx? q l = some (n, a) := by
  induction l generalizing i with
  | nil => cases hb
  | cons x xs ih =>
    unfold jsFindWithIdx?
    cases hqx : q x with
    | true => exact ⟨0, x, rfl⟩
    | false =>
      cases i with
      | zero =>
        simp only [List.get?] at hb
        cases hb
        rw [hq] at hqx
        cases hqx
      | succ j =>
        obtain ⟨n, a, hna⟩ := ih (i := j) (by simpa using hb)
        exact ⟨n + 1, a, by simp [hna]⟩

theorem jsFindWithIdx?_eq_none {q : α → Bool} {l : List α}
    (h : ∀ a ∈ l, q a = false) : jsFindWithIdx? q l = none := by
  induction l with
  | nil => rfl
  | cons x xs ih =>
    unfold jsFindWithIdx?
    rw [h x (by simp)]
    simp [ih (fun a ha => h a (List.mem_cons_of_mem _ ha))]

theorem jsFindIndex_bound {q : α → Bool} {l : List α} {i : Nat} {b : α}
    (hb : l.get? i = some b) (hq : q b = true) :
    0 ≤ jsFindIndex q l ∧ jsFindIndex q l ≤ (i : Int) := by
  obtain ⟨n, a, hna⟩ := jsFindWithIdx?_isSome hb hq
  have hval : jsFindIndex q l = (n : Int) := by simp [jsFindIndex, hna]
  rw [hval]
  exact ⟨Int.ofNat_nonneg n, by exact_mod_cast jsFindWithIdx?_min hna hb hq⟩

theorem jsGetSet {l : List α} {i : Nat} (x : α) (h : i < l.length) :
    (l.set i x).get? i = some x := by
  induction l generalizing i with
  | nil => cases h
  | cons y ys ih =>
    cases i with
    | zero => rfl
    | succ j => exact ih (Nat.lt_of_succ_lt_succ h)

theorem jsGetAppendLeft {l₁ l₂ : List α} {i : Nat} (h : i < l₁.length) :
    (l₁ ++ l₂).get? i = l₁.get? i := by
  induction l₁ generalizing i with
  | nil => cases h
  | cons y ys ih =>
    cases i with
    | zero => rfl
    | succ j => exact ih (Nat.lt_of_succ_lt_succ h)

theorem jsGetAppendLast (l : List α) (x : α) : (l ++ [x]).get? l.length = some x := by
  induction l with
  | nil => rfl
  | cons y ys ih => exact ih

theorem mem_setKey {kv : String × String} {k v : String} {ts : List (String × String)}
    (h : kv ∈ setKey k v ts) : kv = (k, v) ∨ kv ∈ ts := by
  unfold setKey at h
  split at h
  · obtain ⟨kv0, hkv0, heq⟩ := List.mem_map.mp h
    cases h1 : (kv0.1 == k) with
    | true =>
      rw [h1] at heq
      simp only [if_pos rfl] at heq
      exact Or.inl heq.symm
    | false =>
      rw [h1] at heq
      simp only [Bool.false_eq_true, if_neg, not_false_iff] at heq
      exact Or.inr (heq ▸ hkv0)
  · rcases List.mem_append.mp h with h | h
    · exact Or.inr h
    · exact Or.inl (by simpa using h)

/-! ## Preservation of the token-map invariant by each operation -/

theorem tokenKeysValid_cleanup {st : AuthState} (h : TokenKeysValid st) (user : UserDto) :
    TokenKeysValid (logoutUserCleanup st user) := by
  intro kv hkv
  have hmem := List.mem_filter.mp hkv
  have hkne : kv.1 ≠ idKey user.Id := by
    have h2 := hmem.2
    simp only [Bool.not_eq_true'] at h2
    exact beq_eq_false_iff_ne.mp h2
  obtain ⟨u, hu, hid⟩ := h kv hmem.1
  refine ⟨u, ?_, hid⟩
  apply mem_jsEraseFirstWhere_of_not hu
  cases hqu : (u.Id == user.Id) with
  | false => rfl
  | true =>
    exfalso
    have heq : u.Id = user.Id := beq_iff_eq.mp hqu
    have hik : idKey user.Id = kv.1 := by
      rw [← heq, hid]
      rfl
    exact hkne hik.symm

theorem tokenKeysValid_foldl_cleanup (snap : List UserDto) {st : AuthState}
    (h : TokenKeysValid st) : TokenKeysValid (snap.foldl logoutUserCleanup st) := by
  induction snap generalizing st with
  | nil => exact h
  | cons u us ih => exact ih (tokenKeysValid_cleanup h u)

theorem tokenKeysValid_logoutUser {st : AuthState} (h : TokenKeysValid st)
    (u : UserDto) (sv : ServerInfo) (skip ok : Bool) :
    TokenKeysValid (logoutUser st u sv skip ok) :=
  tokenKeysValid_cleanup h u

theorem tokenKeysValid_logoutCurrentUser {st : AuthState} (h : TokenKeysValid st)
    (skip : Bool) : TokenKeysValid (logoutCurrentUser st skip) := by
  unfold logoutCurrentUser
  split
  · exact tokenKeysValid_cleanup h _
  · exact h

theorem tokenKeysValid_deleteServer {st : AuthState} (h : TokenKeysValid st) (url : String) :
    TokenKeysValid (deleteServer st url).state := by
  unfold deleteServer
  split
  · exact h
  · exact tokenKeysValid_foldl_cleanup _ h

theorem tokenKeysValid_loginUser {st : AuthState} (h : TokenKeysValid st)
    (un pw : String) (rm : Bool) (r : Except AxiosErrorModel AuthResponse) :
    TokenKeysValid (loginUser st un pw rm r).state := by
  unfold loginUser
  split
  · exact h
  · split
    · exact h
    · split
      · rename_i data user uid tok huser hid htok
        split
        · exact h
        · intro kv hkv
          rcases mem_setKey hkv with hnew | hold
          · refine ⟨user, by simp, ?_⟩
            have hid2 : user.Id = some uid := by
              rw [huser] at hid
              exact hid
            rw [hnew]
            exact hid2
          · obtain ⟨u, hu, huid⟩ := h kv hold
            exact ⟨u, List.mem_append_left _ hu, huid⟩
      · exact h

theorem tokenKeysValid_connectServer {st : AuthState} (h : TokenKeysValid st)
    (url : String) (isDef : Bool) (resp : Option PublicSystemInfo) :
    TokenKeysValid (connectServer st url isDef resp).state := by
  simp only [connectServer]
  split
  · exact h
  · split
    · split
      · exact h
      · split
        · exact h
        · split
          · exact h
          · split
            · exact tokenKeysValid_foldl_cleanup _ h
            · exact tokenKeysValid_foldl_cleanup _ h
    · exact h

/-! ## Claim C7 -/

/-- C7: for every state whose server registry contains no record with the given
address, deleteServer(address) fails with ServerUnknown and the whole session
state (server registry, user registry, token map and both current selectors) is
unchanged. -/
theorem C7_deleteServer_unknown (st : AuthState) (url : String)
    (h : ∀ s ∈ st.servers, s.PublicAddress ≠ url) :
    (deleteServer st url).result = .error .serverUnknown ∧
      (deleteServer st url).state = st := by
  have hn : jsFindWithIdx? (fun s => s.PublicAddress == url) st.servers = none :=
    jsFindWithIdx?_eq_none (fun a ha => beq_eq_false_iff_ne.mpr (h a ha))
  simp [deleteServer, hn]

/-- C7 witness: deleting an unknown address from the initial state. -/
theorem C7_witness :
    (deleteServer initialAuthState "http://nowhere").result = .error .serverUnknown ∧
      (deleteServer initialAuthState "http://nowhere").state = initialAuthState :=
  C7_deleteServer_unknown initialAuthState "http://nowhere"
    (by intro s hs; simp [initialAuthState] at hs)

/-! ## Claim C4 -/

/-- C4: a connectServer call whose public-system-info request succeeds accepts
the server only when the parsed version satisfies major > 10 or
(major = 10 and minor >= 7); otherwise it notifies, fails with
VersionUnsupported, and leaves the state (in particular the registry)
unchanged. -/
theorem C4_connectServer_version_gate (st : AuthState) (url : String) (isDef : Bool)
    (data : PublicSystemInfo) :
    (isServerVersionSupported data.Version = false →
      connectServer st url isDef (some data) =
        { result := .error .versionUnsupported, state := st
          notifications := ["login.serverVersionTooLow"], navigation := none }) ∧
    (isServerVersionSupported data.Version = true →
      (connectServer st url isDef (some data)).result = .ok ()) ∧
    (isServerVersionSupported data.Version = true ↔
      ∃ a, semverMajorOf data.Version = some a ∧
        (10 < a ∨ (a = 10 ∧ ∃ b, semverMinorOf data.Version = some b ∧ 7 ≤ b))) := by
  refine ⟨?_, ?_, ?_⟩
  · intro h
    simp [connectServer, serverFromResponse, h]
  · intro h
    simp only [connectServer, serverFromResponse, h, if_true]
    split
    · rfl
    · split
      · rfl
      · split
        · rfl
        · split
          · rfl
          · rfl
  · constructor
    · intro h
      simp only [isServerVersionSupported, Bool.or_eq_true, Bool.and_eq_true] at h
      rcases h with h | ⟨h1, h2⟩
      · cases hM : semverMajorOf data.Version with
        | none => rw [hM] at h; cases h
        | some a =>
          rw [hM] at h
          exact ⟨a, rfl, Or.inl (of_decide_eq_true h)⟩
      · cases hM : semverMajorOf data.Version with
        | none => rw [hM] at h1; cases h1
        | some a =>
          rw [hM] at h1
          cases hm : semverMinorOf data.Version with
          | none => rw [hm] at h2; cases h2
          | some b =>
            rw [hm] at h2
            exact ⟨a, rfl, Or.inr ⟨of_decide_eq_true h1, b, rfl, of_decide_eq_true h2⟩⟩
    · intro h
      obtain ⟨a, hM, hcase⟩ := h
      simp only [isServerVersionSupported, hM, jsNaNgt, jsNaNeq, Bool.or_eq_true,
        Bool.and_eq_true]
      rcases hcase with h10 | ⟨h10, b, hm, h7⟩
      · exact Or.inl (decide_eq_true h10)
      · refine Or.inr ⟨decide_eq_true h10, ?_⟩
        rw [hm]
        simp only [jsNaNge]
        exact decide_eq_true h7

/-- C4 witness: version "10.6.9" is rejected with VersionUnsupported and the
registry length unchanged. -/
theorem C4_witness :
    connectServer initialAuthState "http://x" false (some resp1069) =
      { result := .error .versionUnsupported, state := initialAuthState
        notifications := ["login.serverVersionTooLow"], navigation := none } :=
  (C4_connectServer_version_gate initialAuthState "http://x" false resp1069).1 (by decide)

/-! ## Claim C3 -/

/-- C3: for every loginUser call on which the authenticate request fails (any
error shape), loginUser emits exactly one classified notification, resolves
normally, and leaves the whole state (user registry, token map, selectors)
unchanged. -/
theorem C3_loginUser_failure (st : AuthState) (un pw : String) (rm : Bool)
    (e : AxiosErrorModel) (h : (currentServer st).isSome) :
    (loginUser st un pw rm (.error e)).result = .ok () ∧
    (loginUser st un pw rm (.error e)).state = st ∧
    (loginUser st un pw rm (.error e)).notifications = [classifyLoginError e] ∧
    (e.response = none →
      classifyLoginError e = if e.message == "" then "login.serverNotFound" else e.message) ∧
    (∀ s, e.response = some s → s = 500 ∨ s = 401 →
      classifyLoginError e = "incorrectUsernameOrPassword") ∧
    (e.response = some 400 → classifyLoginError e = "badRequest") ∧
    (∀ s, e.response = some s → s ≠ 500 → s ≠ 401 → s ≠ 400 →
      classifyLoginError e = "unexpectedError") := by
  obtain ⟨sv, hsv⟩ := Option.isSome_iff_exists.mp h
  refine ⟨by simp [loginUser, hsv], by simp [loginUser, hsv], by simp [loginUser, hsv],
    ?_, ?_, ?_, ?_⟩
  · intro hr
    simp [classifyLoginError, hr]
  · intro s hs hcase
    simp only [classifyLoginError, hs]
    rcases hcase with rfl | rfl <;> simp
  · intro hr
    simp only [classifyLoginError, hr]
    decide
  · intro s hs h1 h2 h3
    simp only [classifyLoginError, hs]
    simp [beq_eq_false_iff_ne.mpr h1, beq_eq_false_iff_ne.mpr h2, beq_eq_false_iff_ne.mpr h3]

/-- C3 witness: a 401 on login against a state with a current server resolves
normally, changes nothing, and notifies once. -/
theorem C3_witness :
    (loginUser stConnA "u" "p" true (.error { response := some 401, message := "" })).result
        = .ok () ∧
      (loginUser stConnA "u" "p" true (.error { response := some 401, message := "" })).state
        = stConnA ∧
      (loginUser stConnA "u" "p" true
          (.error { response := some 401, message := "" })).notifications
        = ["incorrectUsernameOrPassword"] := by
  have h := C3_loginUser_failure stConnA "u" "p" true { response := some 401, message := "" }
    (by decide)
  refine ⟨h.1, h.2.1, ?_⟩
  rw [h.2.2.1]
  rfl

/-! ## Claim C10 -/

/-- C10: a loginUser call with a current server whose authenticate request
succeeds but whose response lacks a (truthy) user identifier or access token
still records the rememberMe argument, while the user registry, token map and
both selectors are unchanged, and the call resolves normally. -/
theorem C10_loginUser_missing_creds (st : AuthState) (un pw : String) (rm : Bool)
    (data : AuthResponse) (hsv : (currentServer st).isSome)
    (hcreds : hasLoginCreds data = false) :
    (loginUser st un pw rm (.ok data)).result = .ok () ∧
    (loginUser st un pw rm (.ok data)).state = { st with rememberMe := rm } ∧
    (loginUser st un pw rm (.ok data)).notifications = [] := by
  obtain ⟨sv, hsv'⟩ := Option.isSome_iff_exists.mp hsv
  simp only [loginUser, hsv']
  cases hU : data.User with
  | none => simp [hU]
  | some user =>
    cases hid : user.Id with
    | none => simp [hU, hid]
    | some uid =>
      cases htok : data.AccessToken with
      | none => simp [hU, hid, htok]
      | some tok =>
        have hempty : (uid == "" || tok == "") = true := by
          unfold hasLoginCreds at hcreds
          rw [hU] at hcreds
          simp only [truthyStr, hid, htok, Bool.and_eq_false_iff, Bool.not_eq_false'] at hcreds
          rcases hcreds with hc | hc <;> simp [hc]
        simp [hU, hid, htok, hempty]

/-- C10 witness: a success response with a user but no access token only sets
rememberMe. -/
theorem C10_witness :
    (loginUser stConnA "u" "p" false
        (.ok { User := some { Id := some "w", ServerId := some "sa", Name := none }
               AccessToken := none })).result = .ok () ∧
      (loginUser stConnA "u" "p" false
          (.ok { User := some { Id := some "w", ServerId := some "sa", Name := none }
                 AccessToken := none })).state = { stConnA with rememberMe := false } ∧
      (loginUser stConnA "u" "p" false
          (.ok { User := some { Id := some "w", ServerId := some "sa", Name := none }
                 AccessToken := none })).notifications = [] :=
  C10_loginUser_missing_creds stConnA "u" "p" false
    { User := some { Id := some "w", ServerId := some "sa", Name := none }
      AccessToken := none } (by decide) (by decide)

/-! ## Claim C2 -/

/-- C2 counterexample: in a state where two user records on different servers
share the identifier "u1", logging out the record owned by server "a" removes
the record owned by server "b" instead (splice removes the FIRST record whose
id matches), so the given record is not removed and another record is. -/
theorem C2_counterexample :
    usrOnA ∈ collisionState.users ∧
    usrOnB ∈ collisionState.users ∧
    usrOnB ≠ usrOnA ∧
    (logoutUser collisionState usrOnA srvA false true).users = [usrOnA] := by decide

/-- C2 (amended): provided the user record is present in the registry and no
other record shares its identifier, logoutUser resolves normally in a state
where exactly that record is removed and the token entry keyed by its id is
deleted; every other record and token entry is retained. The statement holds
for every skipRequest flag and every outcome of the fire-and-forget remote
call, which the code never reads. -/
theorem C2_logoutUser (st : AuthState) (user : UserDto) (server : ServerInfo)
    (skipRequest remoteOk : Bool) (hmem : user ∈ st.users)
    (huniq : ∀ v ∈ st.users, v.Id = user.Id → v = user) :
    logoutUser st user server skipRequest remoteOk =
      { st with users := st.users.erase user
                accessTokens := eraseKey (idKey user.Id) st.accessTokens } ∧
    (logoutUser st user server skipRequest remoteOk).users.length + 1 = st.users.length ∧
    jsLookup (idKey user.Id) (logoutUser st user server skipRequest remoteOk).accessTokens
      = none ∧
    (∀ k, k ≠ idKey user.Id →
      jsLookup k (logoutUser st user server skipRequest remoteOk).accessTokens
        = jsLookup k st.accessTokens) := by
  have husers : jsEraseFirstWhere (fun v => v.Id == user.Id) st.users = st.users.erase user :=
    jsEraseFirstWhere_eq_erase huniq
  refine ⟨?_, ?_, ?_, ?_⟩
  · simp only [logoutUser, logoutUserCleanup, husers]
  · simp only [logoutUser, logoutUserCleanup, husers]
    have hpos : 0 < st.users.length := List.length_pos_of_mem hmem
    rw [List.length_erase_of_mem hmem]
    omega
  · simp only [logoutUser, logoutUserCleanup]
    exact jsLookup_eraseKey_self _ _
  · intro k hk
    simp only [logoutUser, logoutUserCleanup]
    exact jsLookup_eraseKey_ne hk _

/-- C2 witness: logging out the unique user "u" of server "sb". -/
theorem C2_witness :
    logoutUser stLoginB (⟨some "u", some "sb", some "U"⟩ : UserDto) srvB true false =
      { stLoginB with
        users := stLoginB.users.erase (⟨some "u", some "sb", some "U"⟩ : UserDto)
        accessTokens := eraseKey "u" stLoginB.accessTokens } ∧
    (logoutUser stLoginB (⟨some "u", some "sb", some "U"⟩ : UserDto) srvB
        true false).users.length + 1 = stLoginB.users.length ∧
    jsLookup "u" (logoutUser stLoginB (⟨some "u", some "sb", some "U"⟩ : UserDto) srvB
        true false).accessTokens = none ∧
    (∀ k, k ≠ "u" →
      jsLookup k (logoutUser stLoginB (⟨some "u", some "sb", some "U"⟩ : UserDto) srvB
          true false).accessTokens = jsLookup k stLoginB.accessTokens) :=
  C2_logoutUser stLoginB ⟨some "u", some "sb", some "U"⟩ srvB true false
    (by decide) (by decide)

/-! ## Claim C1 -/

/-- C1 counterexample: deleting server "a" from a state where a user of server
"b" shares the identifier of the user of server "a" leaves the record owned by
server "a" in the registry (the per-user splice removed the record of server
"b" instead), refuting that no user record owned by the deleted server
remains. -/
theorem C1_counterexample :
    srvA ∈ collisionState.servers ∧
    srvA.PublicAddress = "http://a" ∧
    usrOnA ∈ collisionState.users ∧
    usrOnA.ServerId = srvA.Id ∧
    (deleteServer collisionState "http://a").result = .ok () ∧
    usrOnA ∈ (deleteServer collisionState "http://a").state.users := by decide

/-- C1 (amended): provided no two user records in the registry share an
identifier, deleteServer on a registered address removes the found server
record, removes exactly the user records owned by it (the sequential logoutUser
loop), and leaves no token-map entry keyed by any of those users. -/
theorem C1_deleteServer (st : AuthState) (url : String) (d : Nat) (s : ServerInfo)
    (hfind : jsFindWithIdx? (fun x => x.PublicAddress == url) st.servers = some (d, s))
    (hids : (st.users.map (fun u => u.Id)).Nodup) :
    (deleteServer st url).result = .ok () ∧
    (deleteServer st url).state.servers = st.servers.eraseIdx d ∧
    (deleteServer st url).state.users
      = st.users.filter (fun u => !(u.ServerId == s.Id)) ∧
    (∀ u ∈ st.users, u.ServerId = s.Id →
      jsLookup (idKey u.Id) (deleteServer st url).state.accessTokens = none) := by
  simp only [deleteServer, hfind]
  refine ⟨trivial, ?_, ?_, ?_⟩
  · rw [foldl_cleanup_servers]
  · rw [foldl_cleanup_users]
    exact foldl_erase_filter st.users (fun u => u.ServerId == s.Id) hids
  · intro u hu huid
    rw [foldl_cleanup_accessTokens]
    apply jsLookup_foldl_eraseKey_mem
    exact List.mem_filter.mpr ⟨hu, by rw [huid]; simp⟩

/-- C1 witness: deleting server "sb" (position 1, one logged-in user) removes
the server, its user, and the token entry. -/
theorem C1_witness :
    (deleteServer stLoginB "http://b").result = .ok () ∧
    (deleteServer stLoginB "http://b").state.servers = stLoginB.servers.eraseIdx 1 ∧
    (deleteServer stLoginB "http://b").state.users
      = stLoginB.users.filter
          (fun u => !(u.ServerId == (serverFromResponse respB "http://b" false).Id)) ∧
    (∀ u ∈ stLoginB.users, u.ServerId = (serverFromResponse respB "http://b" false).Id →
      jsLookup (idKey u.Id) (deleteServer stLoginB "http://b").state.accessTokens = none) :=
  C1_deleteServer stLoginB "http://b" 1 (serverFromResponse respB "http://b" false)
    (by decide) (by decide)

/-! ## Claim C6 -/

/-- C6 counterexample: stStale is reachable (connect "sa", connect "sb", log in
"u", delete "sa") and has a current user but a dangling currentServerIndex, so
no current server. A 401 on a non-sign-out URL then satisfies every condition
of the claim, the notification fires, yet no sign-out happens: the user record
and its token entry survive. -/
theorem C6_counterexample :
    Reachable stStale ∧
    ((({ status := some 401, url := some "/Items/9" } : AxiosCallError).status = some 401) ∧
      (currentUser stStale).isSome ∧
      urlHasSessionsLogout (some "/Items/9") = false ∧
      (logoutInterceptor stStale { status := some 401, url := some "/Items/9" }).notifications
        = ["kickedOut"] ∧
      (logoutInterceptor stStale { status := some 401, url := some "/Items/9" }).state.users
        = stStale.users ∧
      (logoutInterceptor stStale
          { status := some 401, url := some "/Items/9" }).state.accessTokens
        = stStale.accessTokens ∧
      stStale.users ≠ []) := by
  constructor
  · show Reachable ((deleteServer stLoginB "http://a").state)
    exact Reachable.deleteSrv "http://a"
      (Reachable.login "user" "pw" true (.ok respLoginB)
        (Reachable.connect "http://b" false (some respB)
          (Reachable.connect "http://a" false (some respA) Reachable.init)))
  · decide

/-- C6 (amended): provided a current server is also selected (without one,
logoutCurrentUser is a no-op, see the counterexample), a 401 with a current
user on a non-sign-out URL removes the current user record, deletes its token
entry, resets currentUserIndex to the sentinel and notifies once; a 401 whose
request URL contains the sign-out endpoint changes nothing and emits no
notification; in every case the original error is rethrown. -/
theorem C6_logoutInterceptor (st : AuthState) (e : AxiosCallError) (u : UserDto) :
    (e.status = some 401 → currentUser st = some u → (currentServer st).isSome →
      urlHasSessionsLogout e.url = false →
      (logoutInterceptor st e).state.users
          = jsEraseFirstWhere (fun v => v.Id == u.Id) st.users ∧
        (logoutInterceptor st e).state.accessTokens
          = eraseKey (idKey u.Id) st.accessTokens ∧
        (logoutInterceptor st e).state.currentUserIndex = -1 ∧
        (logoutInterceptor st e).notifications = ["kickedOut"]) ∧
    (urlHasSessionsLogout e.url = true →
      logoutInterceptor st e = { state := st, notifications := [], rethrown := e }) ∧
    (logoutInterceptor st e).rethrown = e := by
  refine ⟨?_, ?_, ?_⟩
  · intro h401 hu hsv hurl
    obtain ⟨sv, hsv'⟩ := Option.isSome_iff_exists.mp hsv
    have hcond : (e.status == some 401 && (currentUser st).isSome
        && !(urlHasSessionsLogout e.url)) = true := by
      simp [h401, hu, hurl]
    simp only [logoutInterceptor, hcond, if_pos]
    simp [logoutCurrentUser, hu, hsv', logoutUser, logoutUserCleanup]
  · intro hurl
    have hcond : (e.status == some 401 && (currentUser st).isSome
        && !(urlHasSessionsLogout e.url)) = false := by
      simp [hurl]
    simp [logoutInterceptor, hcond]
  · unfold logoutInterceptor
    split <;> rfl

/-- C6 witness: in stLoginB (current server "sb", current user "u"), a 401 on
an ordinary URL performs the local-only sign-out and notifies. -/
theorem C6_witness :
    (logoutInterceptor stLoginB { status := some 401, url := some "/Items/1" }).state.users
        = jsEraseFirstWhere
            (fun v => v.Id == (⟨some "u", some "sb", some "U"⟩ : UserDto).Id)
            stLoginB.users ∧
      (logoutInterceptor stLoginB
          { status := some 401, url := some "/Items/1" }).state.accessTokens
        = eraseKey (idKey (⟨some "u", some "sb", some "U"⟩ : UserDto).Id)
            stLoginB.accessTokens ∧
      (logoutInterceptor stLoginB
          { status := some 401, url := some "/Items/1" }).state.currentUserIndex = -1 ∧
      (logoutInterceptor stLoginB
          { status := some 401, url := some "/Items/1" }).notifications = ["kickedOut"] :=
  (C6_logoutInterceptor stLoginB { status := some 401, url := some "/Items/1" }
      ⟨some "u", some "sb", some "U"⟩).1
    (by decide) (by decide) (by decide) (by decide)

/-! ## Claim C5 -/

/-- Fresh-connect branch: version supported, wizard complete, no record with
the same identifier present. The record is appended and currentServerIndex set
by the address lookup on the new registry. -/
theorem connectServer_fresh (st : AuthState) (url : String) (d : Bool)
    (data : PublicSystemInfo)
    (hv : isServerVersionSupported data.Version = true)
    (hw : truthyB data.StartupWizardCompleted = true)
    (hnone : jsFindWithIdx?
        (fun s => s.Id == (serverFromResponse data (normalizeUrl url) d).Id)
        st.servers = none) :
    connectServer st url d (some data) =
      { result := .ok ()
        state := { st with
          servers := st.servers ++ [serverFromResponse data (normalizeUrl url) d]
          currentServerIndex := jsFindIndex (fun s => s.PublicAddress == normalizeUrl url)
            (st.servers ++ [serverFromResponse data (normalizeUrl url) d]) }
        notifications := [], navigation := none } := by
  simp only [connectServer]
  rw [show (serverFromResponse data (normalizeUrl url) d).Version = data.Version from rfl,
    show (serverFromResponse data (normalizeUrl url) d).StartupWizardCompleted
      = data.StartupWizardCompleted from rfl, hv, hw, hnone]
  simp

/-- Reconnect branch on a singleton registry whose record matches the incoming
identifier: the eventual state holds exactly the merged record at position 0,
with currentServerIndex 0, whether or not the old server has users. -/
theorem connectServer_reconnect_singleton (st : AuthState) (url : String) (d : Bool)
    (old : ServerInfo) (data : PublicSystemInfo)
    (hv : isServerVersionSupported data.Version = true)
    (hw : truthyB data.StartupWizardCompleted = true)
    (hsrv : st.servers = [old])
    (hid : (old.Id == (serverFromResponse data (normalizeUrl url) d).Id) = true) :
    (connectServer st url d (some data)).state.servers
        = [mergeServerInfo old (serverFromResponse data (normalizeUrl url) d)] ∧
    (connectServer st url d (some data)).state.currentServerIndex = 0 ∧
    (connectServer st url d (some data)).result = .ok () := by
  have hfid : jsFindWithIdx?
      (fun s => s.Id == (serverFromResponse data (normalizeUrl url) d).Id) st.servers
      = some (0, old) := by
    rw [hsrv]
    unfold jsFindWithIdx?
    rw [hid, if_pos rfl]
  have hfad : jsFindWithIdx? (fun s => s.PublicAddress == old.PublicAddress) st.servers
      = some (0, old) := by
    rw [hsrv]
    unfold jsFindWithIdx?
    simp
  simp only [connectServer,
    show (serverFromResponse data (normalizeUrl url) d).Version = data.Version from rfl,
    show (serverFromResponse data (normalizeUrl url) d).StartupWizardCompleted
      = data.StartupWizardCompleted from rfl, hv, hw, hfid, hfad, Bool.not_true,
    eq_self_iff_true, if_true, Bool.false_eq_true, if_false]
  by_cases hempty : (st.users.filter (fun u => u.ServerId == old.Id)).isEmpty = true
  · rw [if_pos hempty]
    simp [hsrv, jsFindIndex, jsFindWithIdx?,
      show (mergeServerInfo old (serverFromResponse data (normalizeUrl url) d)).PublicAddress
        = normalizeUrl url from rfl]
  · rw [if_neg hempty]
    simp [hsrv, jsFindIndex, jsFindWithIdx?,
      show (mergeServerInfo old (serverFromResponse data (normalizeUrl url) d)).PublicAddress
        = normalizeUrl url from rfl]

/-- C5: two successful connectServer calls (version supported, wizard
completed) whose responses carry the same server identifier, starting from an
empty registry, leave exactly one record: the second response's fields merged
into the first record (replace-by-id), re-associated under the second call's
normalized address, with currentServerIndex the position (0) of the record
whose address is the second call's address; the registry length stays 1. -/
theorem C5_connectServer_same_id (st0 : AuthState) (url1 url2 : String) (d1 d2 : Bool)
    (r1 r2 : PublicSystemInfo) (i : String)
    (hsrv : st0.servers = [])
    (hid1 : r1.Id = some i) (hid2 : r2.Id = some i)
    (hv1 : isServerVersionSupported r1.Version = true)
    (hv2 : isServerVersionSupported r2.Version = true)
    (hw1 : truthyB r1.StartupWizardCompleted = true)
    (hw2 : truthyB r2.StartupWizardCompleted = true) :
    (connectServer (connectServer st0 url1 d1 (some r1)).state url2 d2
        (some r2)).state.servers
        = [mergeServerInfo (serverFromResponse r1 (normalizeUrl url1) d1)
            (serverFromResponse r2 (normalizeUrl url2) d2)] ∧
    (connectServer (connectServer st0 url1 d1 (some r1)).state url2 d2
        (some r2)).state.servers.length = 1 ∧
    (mergeServerInfo (serverFromResponse r1 (normalizeUrl url1) d1)
        (serverFromResponse r2 (normalizeUrl url2) d2)).Id = some i ∧
    (mergeServerInfo (serverFromResponse r1 (normalizeUrl url1) d1)
        (serverFromResponse r2 (normalizeUrl url2) d2)).PublicAddress = normalizeUrl url2 ∧
    (connectServer (connectServer st0 url1 d1 (some r1)).state url2 d2
        (some r2)).state.currentServerIndex = 0 ∧
    jsFindIndex (fun s => s.PublicAddress == normalizeUrl url2)
        (connectServer (connectServer st0 url1 d1 (some r1)).state url2 d2
          (some r2)).state.servers = 0 := by
  have h1 := connectServer_fresh st0 url1 d1 r1 hv1 hw1 (by rw [hsrv]; rfl)
  have hst1 : (connectServer st0 url1 d1 (some r1)).state.servers
      = [serverFromResponse r1 (normalizeUrl url1) d1] := by
    rw [h1, hsrv]
    rfl
  have hidbeq : ((serverFromResponse r1 (normalizeUrl url1) d1).Id
      == (serverFromResponse r2 (normalizeUrl url2) d2).Id) = true := by
    rw [show (serverFromResponse r1 (normalizeUrl url1) d1).Id = r1.Id from rfl,
      show (serverFromResponse r2 (normalizeUrl url2) d2).Id = r2.Id from rfl, hid1, hid2]
    simp
  have h2 := connectServer_reconnect_singleton ((connectServer st0 url1 d1 (some r1)).state)
    url2 d2 (serverFromResponse r1 (normalizeUrl url1) d1) r2 hv2 hw2 hst1 hidbeq
  refine ⟨h2.1, by rw [h2.1]; rfl, ?_, rfl, h2.2.1, ?_⟩
  · simp [mergeServerInfo, serverFromResponse, hid2]
  · rw [h2.1]
    simp [jsFindIndex, jsFindWithIdx?,
      show (mergeServerInfo (serverFromResponse r1 (normalizeUrl url1) d1)
        (serverFromResponse r2 (normalizeUrl url2) d2)).PublicAddress
        = normalizeUrl url2 from rfl]

/-- C5 witness: reconnecting server "sa" under a second address merges into one
record at position 0. -/
theorem C5_witness :
    (connectServer (connectServer initialAuthState "http://a" false (some respA)).state
        "http://a2" true (some respA)).state.servers
        = [mergeServerInfo (serverFromResponse respA (normalizeUrl "http://a") false)
            (serverFromResponse respA (normalizeUrl "http://a2") true)] ∧
    (connectServer (connectServer initialAuthState "http://a" false (some respA)).state
        "http://a2" true (some respA)).state.servers.length = 1 ∧
    (mergeServerInfo (serverFromResponse respA (normalizeUrl "http://a") false)
        (serverFromResponse respA (normalizeUrl "http://a2") true)).Id = some "sa" ∧
    (mergeServerInfo (serverFromResponse respA (normalizeUrl "http://a") false)
        (serverFromResponse respA (normalizeUrl "http://a2") true)).PublicAddress
        = normalizeUrl "http://a2" ∧
    (connectServer (connectServer initialAuthState "http://a" false (some respA)).state
        "http://a2" true (some respA)).state.currentServerIndex = 0 ∧
    jsFindIndex (fun s => s.PublicAddress == normalizeUrl "http://a2")
        (connectServer (connectServer initialAuthState "http://a" false (some respA)).state
          "http://a2" true (some respA)).state.servers = 0 :=
  C5_connectServer_same_id initialAuthState "http://a" "http://a2" false true respA respA "sa"
    rfl rfl rfl (by decide) (by decide) (by decide) (by decide)

/-! ## Claim C9 -/

/-- C9 counterexample: connect "sa" then delete it. The resulting state is
reachable, its registry is empty, yet currentServerIndex still holds the
non-sentinel value 0: deleteServer never recomputes the selector, so it
dangles, refuting the claimed invariant. -/
theorem C9_counterexample :
    Reachable stEmptyStale ∧
    stEmptyStale.servers = [] ∧
    stEmptyStale.currentServerIndex = 0 ∧
    stEmptyStale.currentServerIndex ≠ -1 := by
  refine ⟨?_, by decide, by decide, by decide⟩
  show Reachable ((deleteServer stConnA "http://a").state)
  exact Reachable.deleteSrv "http://a"
    (Reachable.connect "http://a" false (some respA) Reachable.init)

/-- C9 (amended): selectors are valid at the moment an operation assigns them:
a successful registry-updating connectServer leaves currentServerIndex a valid
index of the updated registry; a successful credentialed login sets
currentUserIndex to the position of the appended record; logoutCurrentUser
(with a current user and server) resets currentUserIndex to the sentinel.
Operations that shrink a registry do not recompute the selectors (see the
counterexample), so a previously valid non-sentinel selector may dangle. -/
theorem C9_selector_assignment :
    (∀ (st : AuthState) (url : String) (isDef : Bool) (data : PublicSystemInfo),
      (connectServer st url isDef (some data)).result = .ok () →
      (connectServer st url isDef (some data)).navigation = none →
      0 ≤ (connectServer st url isDef (some data)).state.currentServerIndex ∧
        (connectServer st url isDef (some data)).state.currentServerIndex
          < ((connectServer st url isDef (some data)).state.servers.length : Int)) ∧
    (∀ (st : AuthState) (un pw : String) (rm : Bool) (data : AuthResponse),
      (currentServer st).isSome → hasLoginCreds data = true →
      (loginUser st un pw rm (.ok data)).state.currentUserIndex = (st.users.length : Int) ∧
        (loginUser st un pw rm (.ok data)).state.users.length = st.users.length + 1) ∧
    (∀ (st : AuthState) (skip : Bool),
      (currentUser st).isSome → (currentServer st).isSome →
      (logoutCurrentUser st skip).currentUserIndex = -1) := by
  refine ⟨?_, ?_, ?_⟩
  · intro st url isDef data hres hnav
    simp only [connectServer, serverFromResponse] at hres hnav ⊢
    cases hv : isServerVersionSupported data.Version with
    | false => simp [hv] at hres
    | true =>
      cases hw : truthyB data.StartupWizardCompleted with
      | false => simp [hv, hw] at hnav
      | true =>
        simp only [hv, hw, Bool.not_true, eq_self_iff_true, if_true, Bool.false_eq_true,
          if_false] at hres hnav ⊢
        cases hfid : jsFindWithIdx?
            (fun s => s.Id == data.Id) st.servers with
        | none =>
          simp only [hfid]
          have hget := jsGetAppendLast st.servers
            (⟨data.Id, data.Version, data.StartupWizardCompleted, normalizeUrl url, isDef⟩ :
              ServerInfo)
          have hb := jsFindIndex_bound (q := fun s => s.PublicAddress == normalizeUrl url)
            hget (by simp)
          constructor
          · exact hb.1
          · have hlen : (st.servers ++
                [(⟨data.Id, data.Version, data.StartupWizardCompleted, normalizeUrl url,
                  isDef⟩ : ServerInfo)]).length = st.servers.length + 1 := by simp
            rw [hlen]
            have := hb.2
            omega
        | some pOld =>
          obtain ⟨p, old⟩ := pOld
          cases hfad : jsFindWithIdx?
              (fun s => s.PublicAddress == old.PublicAddress) st.servers with
          | none =>
            simp only [hfid, hfad]
            have hget := jsGetAppendLast
              (st.servers.set p (mergeServerInfo old
                ⟨data.Id, data.Version, data.StartupWizardCompleted, normalizeUrl url,
                  isDef⟩))
              (mergeServerInfo old
                ⟨data.Id, data.Version, data.StartupWizardCompleted, normalizeUrl url,
                  isDef⟩)
            have hb := jsFindIndex_bound (q := fun s => s.PublicAddress == normalizeUrl url)
              hget (by simp [mergeServerInfo])
            constructor
            · exact hb.1
            · have := hb.2
              simp only [List.length_append, List.length_set, List.length_singleton]
              simp only [List.length_set] at this
              omega
          | some dTarget =>
            obtain ⟨d0, target⟩ := dTarget
            by_cases hempty : (st.users.filter (fun u => u.ServerId == target.Id)).isEmpty
              = true
            · simp only [hfid, hfad]
              rw [if_pos hempty]
              have hget := jsGetAppendLast
                (if (d0 == p) = true then st.servers.eraseIdx d0
                 else (st.servers.eraseIdx d0).set (if d0 < p then p - 1 else p)
                   (mergeServerInfo old
                     ⟨data.Id, data.Version, data.StartupWizardCompleted, normalizeUrl url,
                       isDef⟩))
                (mergeServerInfo old
                  ⟨data.Id, data.Version, data.StartupWizardCompleted, normalizeUrl url,
                    isDef⟩)
              have hb := jsFindIndex_bound
                (q := fun s => s.PublicAddress == normalizeUrl url) hget
                (by simp [mergeServerInfo])
              constructor
              · exact hb.1
              · have := hb.2
                simp only [List.length_append, List.length_singleton]
                omega
            · simp only [hfid, hfad]
              rw [if_neg hempty]
              dsimp only
              have hp : p < st.servers.length := (jsFindWithIdx?_eq_some hfid).1
              have hd : d0 < st.servers.length := (jsFindWithIdx?_eq_some hfad).1
              have hget : ((st.servers.set p (mergeServerInfo old
                  ⟨data.Id, data.Version, data.StartupWizardCompleted, normalizeUrl url,
                    isDef⟩)) ++
                  [mergeServerInfo old
                    ⟨data.Id, data.Version, data.StartupWizardCompleted, normalizeUrl url,
                      isDef⟩]).get? p
                  = some (mergeServerInfo old
                    ⟨data.Id, data.Version, data.StartupWizardCompleted, normalizeUrl url,
                      isDef⟩) := by
                rw [jsGetAppendLeft (by simp [hp])]
                exact jsGetSet _ hp
              have hb := jsFindIndex_bound
                (q := fun s => s.PublicAddress == normalizeUrl url) hget
                (by simp [mergeServerInfo])
              have hlen : (((st.servers.set p (mergeServerInfo old
                  ⟨data.Id, data.Version, data.StartupWizardCompleted, normalizeUrl url,
                    isDef⟩)) ++
                  [mergeServerInfo old
                    ⟨data.Id, data.Version, data.StartupWizardCompleted, normalizeUrl url,
                      isDef⟩]).eraseIdx d0).length = st.servers.length := by
                rw [List.length_eraseIdx_of_lt (by simp only [List.length_append,
                  List.length_set, List.length_singleton]; omega)]
                simp only [List.length_append, List.length_set, List.length_singleton]
                omega
              rw [hlen]
              exact ⟨hb.1, by have := hb.2; omega⟩
  · intro st un pw rm data hsv hcreds
    obtain ⟨sv, hsv'⟩ := Option.isSome_iff_exists.mp hsv
    cases hU : data.User with
    | none => rw [hasLoginCreds, hU] at hcreds; cases hcreds
    | some user =>
      cases hid : user.Id with
      | none =>
        rw [hasLoginCreds, hU] at hcreds
        simp only [truthyStr, hid, Bool.false_and] at hcreds
        cases hcreds
      | some uid =>
        cases htok : data.AccessToken with
        | none =>
          rw [hasLoginCreds, hU] at hcreds
          simp only [truthyStr, htok, Bool.and_false] at hcreds
          cases hcreds
        | some tok =>
          have hne : (uid == "" || tok == "") = false := by
            rw [hasLoginCreds, hU] at hcreds
            simp only [truthyStr, hid, htok, Bool.and_eq_true, Bool.not_eq_true'] at hcreds
            simp [hcreds.1, hcreds.2]
          simp [loginUser, hsv', hU, hid, htok, hne]
  · intro st skip hcu hcs
    obtain ⟨u, hu⟩ := Option.isSome_iff_exists.mp hcu
    obtain ⟨sv, hsv⟩ := Option.isSome_iff_exists.mp hcs
    simp [logoutCurrentUser, hu, hsv]

/-- C9 witness: the three assignment-time validity statements at concrete
states. -/
theorem C9_witness :
    (0 ≤ (connectServer initialAuthState "http://a" false (some respA)).state.currentServerIndex ∧
      (connectServer initialAuthState "http://a" false (some respA)).state.currentServerIndex
        < ((connectServer initialAuthState "http://a" false
            (some respA)).state.servers.length : Int)) ∧
    ((loginUser stConnAB "user" "pw" true (.ok respLoginB)).state.currentUserIndex
        = (stConnAB.users.length : Int) ∧
      (loginUser stConnAB "user" "pw" true (.ok respLoginB)).state.users.length
        = stConnAB.users.length + 1) ∧
    (logoutCurrentUser stLoginB true).currentUserIndex = -1 :=
  ⟨C9_selector_assignment.1 initialAuthState "http://a" false respA (by decide) (by decide),
   C9_selector_assignment.2.1 stConnAB "user" "pw" true respLoginB (by decide) (by decide),
   C9_selector_assignment.2.2 stLoginB true (by decide) (by decide)⟩

/-! ## Claim C8 -/

/-- C8: in every state reachable from the initial state by any sequence of
Session Manager operations (connectServer, loginUser, logoutUser,
logoutCurrentUser, deleteServer), every key of the token map is the identifier
of a user record currently present in the user registry: entries are created
together with their record (loginUser) and destroyed together with the removal
targeting the same identifier (logoutUser and the per-user loops). -/
theorem C8_token_keys_invariant (st : AuthState) (h : Reachable st) : TokenKeysValid st := by
  induction h with
  | init =>
    intro kv hkv
    simp [initialAuthState] at hkv
  | connect url isDef resp _ ih => exact tokenKeysValid_connectServer ih url isDef resp
  | login un pw rm r _ ih => exact tokenKeysValid_loginUser ih un pw rm r
  | logout u sv skip ok _ ih => exact tokenKeysValid_logoutUser ih u sv skip ok
  | logoutCurrent skip _ ih => exact tokenKeysValid_logoutCurrentUser ih skip
  | deleteSrv url _ ih => exact tokenKeysValid_deleteServer ih url

/-- C8 witness: the invariant holds at the reachable state stLoginB (connect
"sa", connect "sb", log in "u"). -/
theorem C8_witness : TokenKeysValid stLoginB :=
  C8_token_keys_invariant stLoginB
    (Reachable.login "user" "pw" true (.ok respLoginB)
      (Reachable.connect "http://b" false (some respB)
        (Reachable.connect "http://a" false (some respA) Reachable.init)))
